import Mathlib

/-!
# dotmesh: RPC client, endpoint discovery, events and the retrying ZFS runner

A shallow embedding of `pkg/client/client.go`, `pkg/types/event.go` and
`pkg/zfs/exec_util.go`.

Go `error` values are represented by their message (`GoError`), a nil error by
`none`.  Everything outside the three files (the JSON-RPC codec `json2`, the
`net/http` client, the tracer) is an explicit environment `Env` of functions, so
every statement below quantifies over all behaviours of those collaborators.
The observable actions of a call (span operations, the HTTP request handed to the
transport, reads of the response body, output on stdout) are recorded, in program
order, in a list of `Effect`s.  The `context.Context` argument has no parameter of its
own: in the client it only bounds the transport, whose every outcome `Env.Do` already
ranges over, and in the ZFS runner its `Done()` channel is the `done` field of
`RetryWorld`.
-/

namespace Dotmesh

/-! ## Strings and `fmt` -/

/-- A Go error, identified with the text its `Error()` method returns. -/
abbrev GoError := String

/-- Substring relation: `needle` occurs in `hay` as a contiguous run of characters. -/
def occursIn (needle hay : String) : Prop := needle.data <:+: hay.data

instance (needle hay : String) : Decidable (occursIn needle hay) := by
  unfold occursIn; infer_instance

/-- Elements separated by `sep`. -/
def joinWith (sep : String) : List String → String
  | [] => ""
  | [x] => x
  | x :: y :: rest => x ++ sep ++ joinWith sep (y :: rest)

/-- The rendering by `fmt` under `%v` (and `%+v`) of a slice whose elements render as
the given strings: the elements separated by one space, in square brackets. -/
def sprintSlice (xs : List String) : String := "[" ++ joinWith " " xs ++ "]"

/-! ## pkg/client/client.go -/

def SERVER_PORT : String := "32607"
def LIVENESS_PORT : String := "32608"
def SERVER_PORT_OLD : String := "6969"

structure JsonRpcClient where
  User : String
  Hostname : String
  ApiKey : String
  Port : Int
  Verbose : Bool
deriving DecidableEq

def NewJsonRpcClient (user hostname apiKey : String) (port : Int) : JsonRpcClient :=
  { User := user, Hostname := hostname, ApiKey := apiKey, Port := port, Verbose := false }

/-- The fields of a `JsonRpcClient` in declaration order, as `reflect` enumerates them:
the field name and the `%v` rendering of its value. -/
def JsonRpcClient.reflectFields (c : JsonRpcClient) : List (String × String) :=
  [("User", c.User), ("Hostname", c.Hostname), ("ApiKey", c.ApiKey),
   ("Port", toString c.Port), ("Verbose", toString c.Verbose)]

/-- The `args interface{}` argument of a call. -/
inductive Args where
  /-- the untyped `nil` -/
  | nil
  /-- the empty struct value `struct{}{}` -/
  | emptyStruct
  /-- any other payload, given by its `%v` rendering -/
  | value (rendering : String)
deriving DecidableEq

/-- The rendering `fmt.Sprintf("%v", args)`. -/
def Args.sprintV : Args → String
  | .nil => "<nil>"
  | .emptyStruct => "\x7b\x7d"
  | .value r => r

/-- The contents of the caller-owned result destination (`result interface{}`,
a pointer): a `bool` variable or any other destination, given by its contents. -/
inductive Dest where
  | bool (b : Bool)
  | other (contents : String)
deriving DecidableEq

structure HttpRequest where
  method : String
  url : String
  body : String
  contentType : String
  traceHeaders : List (String × String)
  basicAuth : String × String
deriving DecidableEq

structure HttpResponse where
  StatusCode : Int
  /-- what `ioutil.ReadAll(resp.Body)` yields when it is called -/
  Body : Except GoError String

/-- The collaborators of the client. -/
structure Env where
  /-- The codec call `json2.EncodeClientRequest(method, args)` -/
  EncodeClientRequest : String → Args → Except GoError String
  /-- The constructor `http.NewRequest(method, url, body)`: whether the request can be constructed -/
  NewRequest : String → String → String → Option GoError
  /-- The middleware `middleware.ToHTTPRequest(tracer)`: the propagation headers for the span of the
  given operation name -/
  ToHTTPRequest : String → List (String × String)
  /-- The transport `http.DefaultClient.Do(req)` -/
  Do : HttpRequest → Except GoError HttpResponse
  /-- The codec call `json2.DecodeClientResponse(body, &result)`: the error and the destination
  afterwards -/
  DecodeClientResponse : String → Dest → Option GoError × Dest

/-- Observable actions, in program order. -/
inductive Effect where
  /-- entry into `reallyCallRemote` for the given URL, method and arguments -/
  | call (url method : String) (args : Args)
  | startSpan (operation : String)
  | setTag (key value : String)
  | finish
  | stdout (line : String)
  /-- the request handed to `http.DefaultClient.Do` -/
  | send (req : HttpRequest)
  | readBody
  | closeBody
  | decode (body : String)
deriving DecidableEq

structure CallOutcome where
  err : Option GoError
  result : Dest
  trace : List Effect

def reallyCallRemote (env : Env) (j : JsonRpcClient) (method : String) (args : Args)
    (result : Dest) (urlToUse : String) : CallOutcome :=
  let t0 : List Effect :=
    [.call urlToUse method args, .startSpan method,
     .setTag "type" "dotmesh-server rpc", .setTag "rpcMethod" method,
     .setTag "rpcArgs" args.sprintV]
  -- `defer span.Finish()` runs at every return below
  match env.EncodeClientRequest method args with
  | .error err => ⟨some err, result, t0 ++ [.finish]⟩
  | .ok message =>
    let t1 := t0 ++ (if j.Verbose then [.stdout "send rpc request", .stdout message] else [])
    match env.NewRequest "POST" urlToUse message with
    | some err => ⟨some err, result, t1 ++ [.finish]⟩
    | none =>
      let req : HttpRequest :=
        { method := "POST", url := urlToUse, body := message,
          contentType := "application/json",
          traceHeaders := env.ToHTTPRequest method,
          basicAuth := (j.User, j.ApiKey) }
      let t2 := t1 ++ [.send req]
      match env.Do req with
      | .error err => ⟨some err, result, t2 ++ [.finish]⟩
      | .ok resp =>
        -- `defer resp.Body.Close()` runs, before `span.Finish()`, at every return below
        if resp.StatusCode = 401 then
          ⟨some "Permission denied. Please check that your API key is still valid.", result,
            t2 ++ [.setTag "error" "Permission denied", .closeBody, .finish]⟩
        else
          match resp.Body with
          | .error err =>
            ⟨some ("Error reading body: " ++ err), result,
              t2 ++ [.readBody, .setTag "error" err, .closeBody, .finish]⟩
          | .ok b =>
            let t3 := t2 ++ [.readBody] ++
              (if j.Verbose then [.stdout "got rpc response", .stdout b] else [])
            match env.DecodeClientResponse b result with
            | (some err, result') =>
              let msg := "Response '" ++ b ++ "' yields error " ++ err
              ⟨some msg, result', t3 ++ [.decode b, .setTag "error" msg, .closeBody, .finish]⟩
            | (none, result') => ⟨none, result', t3 ++ [.decode b, .closeBody, .finish]⟩

/-- The candidate base URLs for one hostname (the local `urlsToTry` of `DeduceUrl`). -/
def urlsToTry (mode hostname : String) : List String :=
  if mode == "external" then
    ["https://" ++ hostname ++ ":443",
     "http://" ++ hostname ++ ":80",
     "https://" ++ hostname ++ ":" ++ SERVER_PORT,
     "http://" ++ hostname ++ ":" ++ SERVER_PORT]
  else
    ["http://" ++ hostname ++ ":" ++ SERVER_PORT,
     "http://" ++ hostname ++ ":" ++ SERVER_PORT_OLD]

/-- One probe of `DeduceUrl` (the first three statements of its inner loop body). -/
def probe (env : Env) (user apiKey urlToTry : String) : CallOutcome :=
  reallyCallRemote env (NewJsonRpcClient user "" apiKey 0) "DotmeshRPC.Ping" .nil
    (.bool false) (urlToTry ++ "/rpc")

/-- The state of the loops of `DeduceUrl`: the URL returned early if any, the
accumulated `errs`, and the effects so far. -/
structure LoopState where
  found : Option String
  errs : List GoError
  trace : List Effect

/-- The inner loop `for _, urlToTry := range urlsToTry`. -/
def innerLoop (env : Env) (user apiKey : String) :
    List String → List GoError → List Effect → LoopState
  | [], errs, tr => ⟨none, errs, tr⟩
  | urlToTry :: rest, errs, tr =>
    let o := probe env user apiKey urlToTry
    match o.err with
    | none => ⟨some urlToTry, errs, tr ++ o.trace⟩
    | some err => innerLoop env user apiKey rest (errs ++ [err]) (tr ++ o.trace)

/-- The outer loop `for _, hostname := range hostnames`. -/
def outerLoop (env : Env) (mode user apiKey : String) :
    List String → List GoError → List Effect → LoopState
  | [], errs, tr => ⟨none, errs, tr⟩
  | hostname :: rest, errs, tr =>
    match innerLoop env user apiKey (urlsToTry mode hostname) errs tr with
    | ⟨some url, errs', tr'⟩ => ⟨some url, errs', tr'⟩
    | ⟨none, errs', tr'⟩ => outerLoop env mode user apiKey rest errs' tr'

structure DeduceOutcome where
  url : String
  err : Option GoError
  trace : List Effect

def DeduceUrl (env : Env) (hostnames : List String) (mode user apiKey : String) :
    DeduceOutcome :=
  match outerLoop env mode user apiKey hostnames [] [] with
  | ⟨some url, _, tr⟩ => ⟨url, none, tr⟩
  | ⟨none, errs, tr⟩ =>
    ⟨"", some ("Unable to connect to any of the addresses attempted: " ++
        sprintSlice hostnames ++ ", errs: " ++ sprintSlice errs), tr⟩

def JsonRpcClient.CallRemote (env : Env) (j : JsonRpcClient) (method : String)
    (args : Args) (result : Dest) : CallOutcome :=
  if j.Port = 0 then
    let d := DeduceUrl env [j.Hostname] "external" j.User j.ApiKey
    match d.err with
    | some err => ⟨some err, result, d.trace⟩
    | none =>
      let o := reallyCallRemote env j method args result (d.url ++ "/rpc")
      ⟨o.err, o.result, d.trace ++ o.trace⟩
  else
    reallyCallRemote env j method args result
      ("http://" ++ j.Hostname ++ ":" ++ toString j.Port ++ "/rpc")

structure PingOutcome where
  response : Bool
  err : Option GoError
  trace : List Effect

def JsonRpcClient.Ping (env : Env) (client : JsonRpcClient) : PingOutcome :=
  let o := client.CallRemote env "DotmeshRPC.Ping" .emptyStruct (.bool false)
  match o.err with
  | some err => ⟨false, some err, o.trace⟩
  | none =>
    match o.result with
    | .bool response => ⟨response, none, o.trace⟩
    | .other _ => ⟨false, none, o.trace⟩

def JsonRpcClient.String (jsonRpcClient : JsonRpcClient) : String :=
  jsonRpcClient.reflectFields.foldl
    (fun toString field =>
      if field.1 == "ApiKey" then toString ++ (" " ++ field.1 ++ "=" ++ "****" ++ ",")
      else toString ++ (" " ++ field.1 ++ "=" ++ field.2 ++ ","))
    ""

/-- The URLs `reallyCallRemote` was entered with, in order. -/
def calledUrls (tr : List Effect) : List String :=
  tr.filterMap fun e => match e with
    | .call url _ _ => some url
    | _ => none

/-- The requests handed to the HTTP transport, in order. -/
def sentRequests (tr : List Effect) : List HttpRequest :=
  tr.filterMap fun e => match e with
    | .send req => some req
    | _ => none

/-- The concatenated effects of probing each of the given candidates. -/
def probeTraces (env : Env) (user apiKey : String) (cands : List String) : List Effect :=
  cands.flatMap fun v => (probe env user apiKey v).trace

/-- The errors of the probes of the given candidates, in order (successes contribute
nothing). -/
def probeErrors (env : Env) (user apiKey : String) (cands : List String) : List GoError :=
  cands.filterMap fun v => (probe env user apiKey v).err

/-! ### Example environments -/

/-- The JSON text of the `params` member for the given arguments. -/
def Args.json : Args → String
  | .nil => "null"
  | .emptyStruct => "\x7b\x7d"
  | .value r => r

/-- An encoder shaped like `json2.EncodeClientRequest` (with the request id fixed). -/
def encodeJson (method : String) (args : Args) : Except GoError String :=
  .ok ("\x7b\"jsonrpc\":\"2.0\",\"method\":\"" ++ method ++ "\",\"params\":" ++ args.json ++
    ",\"id\":0\x7d")

/-- A decoder that accepts exactly the body `true` for a `bool` destination. -/
def decodeBool (body : String) (dest : Dest) : Option GoError × Dest :=
  if body == "true" then (none, .bool true) else (some "invalid response", dest)

/-- A network in which the peers listening on the URLs satisfying `up` answer every
request with status 200 and body `true`, and every other connection is refused. -/
def netEnv (up : String → Bool) : Env :=
  { EncodeClientRequest := encodeJson
    NewRequest := fun _ _ _ => none
    ToHTTPRequest := fun _ => []
    Do := fun req =>
      if up req.url then .ok ⟨200, .ok "true"⟩ else .error "connection refused"
    DecodeClientResponse := decodeBool }

/-- A peer that rejects the credentials: every request is answered with status 401. -/
def env401 : Env :=
  { EncodeClientRequest := encodeJson
    NewRequest := fun _ _ _ => none
    ToHTTPRequest := fun _ => []
    Do := fun _ => .ok ⟨401, .ok "Unauthorized"⟩
    DecodeClientResponse := decodeBool }

/-! ## pkg/types/event.go -/

/-- A value stored in an `EventArgs` map (`interface{}`). -/
inductive ArgValue where
  /-- a value that implements `error` -/
  | error (err : GoError)
  /-- the nil interface value -/
  | nil
  /-- a value of any type that does not implement `error` -/
  | other (rendering : String)
deriving DecidableEq

/-- The map `map[string]interface{}` as its key/value entries; `List.lookup` is the
map index expression. -/
abbrev EventArgs := List (String × ArgValue)

inductive EventType where
  | EventTypeRequest
  | EventTypeResponse
deriving DecidableEq

structure Event where
  ID : String
  Name : String
  FilesystemID : String
  Type' : EventType
  /-- the pointer `*EventArgs`; `none` is the nil pointer -/
  Args : Option EventArgs
deriving DecidableEq

def Event.Error (e : Event) : Option GoError :=
  match e.Args with
  | none => none
  | some args =>
    match args.lookup "err" with
    | none => none
    | some errIntf =>
      match errIntf with
      | .error err => some err
      | _ => none

def NewEvent (name : String) : Event :=
  { ID := "", Name := name, FilesystemID := "", Type' := .EventTypeRequest, Args := some [] }

def NewErrorEvent (name : String) (err : Option GoError) : Event :=
  match err with
  | none => NewEvent name
  | some err =>
    { ID := "", Name := name, FilesystemID := "", Type' := .EventTypeRequest,
      Args := some [("err", .error err)] }

/-! ## pkg/zfs/exec_util.go -/

/-- What the operating system does when the command is started and waited for. -/
inductive Execution where
  /-- no process could be started: `Start` fails and the `Cmd` stays unstarted -/
  | notStarted (err : GoError)
  /-- a process was started and waited for: the error of `Wait` (nil on exit status 0)
  and what the process wrote to its standard error -/
  | ran (waitErr : Option GoError) (stderr : String)
deriving DecidableEq

/-- What one call of `cmd.Run()` yields. -/
structure RunOutcome where
  /-- the error returned by `cmd.Run()` -/
  cmdErr : Option GoError
  /-- what was written to `cmd.Stderr` during the call -/
  stderr : String
  /-- whether the `Cmd` holds a started process after the call -/
  started : Bool
  /-- whether this call executed the command -/
  executed : Bool
deriving DecidableEq

/-- The method `Run` of an `os/exec.Cmd`, which `zfsCommandWithRetries` calls on one and
the same `*exec.Cmd` in every iteration.  A `Cmd` whose process was started by an earlier
call refuses to run again, returning `exec: already started` without executing anything;
an unstarted `Cmd` does what the operating system does with the execution `e`. -/
def cmdRun (started : Bool) (e : Execution) : RunOutcome :=
  if started then ⟨some "exec: already started", "", true, false⟩
  else
    match e with
    | .notStarted err => ⟨some err, "", false, false⟩
    | .ran waitErr stderr => ⟨waitErr, stderr, true, true⟩

/-- The surroundings of `zfsCommandWithRetries`, indexed by the number `i` of calls of
`cmd.Run()` made so far: `done i` tells whether `ctx.Done()` is ready at the check made
then, `exec i` is what executing the command at that moment does, and `readErr i` is the
error of `ioutil.ReadAll(&errBuffer)` after call `i`. -/
structure RetryWorld where
  done : Nat → Bool
  exec : Nat → Execution
  readErr : Nat → Option GoError

structure RetryOutcome where
  err : Option GoError
  /-- how many times `cmd.Run()` was called -/
  runs : Nat
  /-- how many of those calls executed the command -/
  executions : Nat
deriving DecidableEq

/-- The rendering of an `error` under `%s`. -/
def sprintErr : Option GoError → String
  | none => "%!s(<nil>)"
  | some err => err

/-- The value assigned to `err` after a failed call of `cmd.Run()`. -/
def retryError (description : String) (readErr : Option GoError) (cmdErr : GoError)
    (stderr : String) : GoError :=
  match readErr with
  | some readErr => "error reading error: " ++ readErr
  | none => "error running ZFS command to " ++ description ++ ": " ++ cmdErr ++ " / " ++ stderr

/-- The loop of `zfsCommandWithRetries`, entered after `i` calls of `cmd.Run()` with the
`Cmd` started or not, `executions` executions so far and the variable `err`; `fuel`
bounds the number of iterations and `none` means it was exhausted.  (The half second
sleep after a failed run is not represented.) -/
def zfsCommandWithRetriesFrom (w : RetryWorld) (description : String) :
    Nat → Nat → Bool → Nat → Option GoError → Option RetryOutcome
  | 0, _, _, _, _ => none
  | fuel + 1, i, started, executions, err =>
    if w.done i then
      some ⟨some ("deadline exceeded, last error: " ++ sprintErr err), i, executions⟩
    else
      let r := cmdRun started (w.exec i)
      let executions' := if r.executed then executions + 1 else executions
      match r.cmdErr with
      | some cmdErr =>
        zfsCommandWithRetriesFrom w description fuel (i + 1) r.started executions'
          (some (retryError description (w.readErr i) cmdErr r.stderr))
      | none => some ⟨none, i + 1, executions'⟩

def zfsCommandWithRetries (w : RetryWorld) (description : String) (fuel : Nat) :
    Option RetryOutcome :=
  zfsCommandWithRetriesFrom w description fuel 0 false 0 none

/-- A command that exits with status 1 and the output `dataset is busy` when executed
during the first two iterations and exits with status 0 when executed later, under a
context that is done from the check after `deadline` calls on. -/
def busyWorld (deadline : Nat) : RetryWorld :=
  { done := fun i => decide (deadline ≤ i)
    exec := fun i => if i < 2 then .ran (some "exit status 1") "dataset is busy" else .ran none ""
    readErr := fun _ => none }

/-- The candidates up to and including the first one that satisfies `ok`, all of them
when none does. -/
def upToFirst (ok : String → Bool) : List String → List String
  | [] => []
  | v :: rest => if ok v then [v] else v :: upToFirst ok rest

/-- The URL, method and arguments of each entry into `reallyCallRemote`, in order. -/
def calledWith (tr : List Effect) : List (String × String × Args) :=
  tr.filterMap fun e => match e with
    | .call url method args => some (url, method, args)
    | _ => none

/-- The values of the `error` tags set on spans, in order. -/
def errorTags (tr : List Effect) : List String :=
  tr.filterMap fun e => match e with
    | .setTag key value => if key == "error" then some value else none
    | _ => none

/-! # Theorems -/

set_option maxRecDepth 100000

/-! ## Facts about `reallyCallRemote` and the discovery loops -/

lemma calledUrls_append (a b : List Effect) :
    calledUrls (a ++ b) = calledUrls a ++ calledUrls b := by
  simp [calledUrls, List.filterMap_append]

lemma calledUrls_reallyCallRemote (env : Env) (j : JsonRpcClient) (method : String)
    (args : Args) (result : Dest) (url : String) :
    calledUrls (reallyCallRemote env j method args result url).trace = [url] := by
  unfold reallyCallRemote
  simp only []
  repeat' split
  all_goals simp [calledUrls]

lemma calledUrls_probeTraces (env : Env) (user apiKey : String) (cands : List String) :
    calledUrls (probeTraces env user apiKey cands) = cands.map (· ++ "/rpc") := by
  induction cands with
  | nil => simp [probeTraces, calledUrls]
  | cons v rest ih =>
    have h : probeTraces env user apiKey (v :: rest)
        = (probe env user apiKey v).trace ++ probeTraces env user apiKey rest := by
      simp [probeTraces]
    rw [h, calledUrls_append, ih]
    simp [probe, calledUrls_reallyCallRemote]

lemma probeTraces_append (env : Env) (user apiKey : String) (a b : List String) :
    probeTraces env user apiKey (a ++ b)
      = probeTraces env user apiKey a ++ probeTraces env user apiKey b := by
  simp [probeTraces]

lemma probeErrors_append (env : Env) (user apiKey : String) (a b : List String) :
    probeErrors env user apiKey (a ++ b)
      = probeErrors env user apiKey a ++ probeErrors env user apiKey b := by
  simp [probeErrors, List.filterMap_append]

/-- When every candidate fails the inner loop runs to its end, collecting every error. -/
lemma innerLoop_all_fail (env : Env) (user apiKey : String) :
    ∀ (cands : List String) (errs : List GoError) (tr : List Effect),
      (∀ v ∈ cands, (probe env user apiKey v).err ≠ none) →
      innerLoop env user apiKey cands errs tr
        = ⟨none, errs ++ probeErrors env user apiKey cands,
            tr ++ probeTraces env user apiKey cands⟩ := by
  intro cands
  induction cands with
  | nil => intro errs tr _; simp [innerLoop, probeErrors, probeTraces]
  | cons v rest ih =>
    intro errs tr h
    have hv : (probe env user apiKey v).err ≠ none := h v (List.mem_cons_self _ _)
    obtain ⟨e, he⟩ := Option.ne_none_iff_exists'.mp hv
    have hrest : ∀ w ∈ rest, (probe env user apiKey w).err ≠ none :=
      fun w hw => h w (List.mem_cons_of_mem _ hw)
    simp only [innerLoop, he]
    rw [ih _ _ hrest]
    simp [probeErrors, probeTraces, he]

/-- The inner loop stops at the first candidate whose probe succeeds. -/
lemma innerLoop_first_success (env : Env) (user apiKey : String) :
    ∀ (pre : List String) (u : String) (post : List String) (errs : List GoError)
      (tr : List Effect),
      (∀ v ∈ pre, (probe env user apiKey v).err ≠ none) →
      (probe env user apiKey u).err = none →
      innerLoop env user apiKey (pre ++ u :: post) errs tr
        = ⟨some u, errs ++ probeErrors env user apiKey pre,
            tr ++ probeTraces env user apiKey (pre ++ [u])⟩ := by
  intro pre
  induction pre with
  | nil =>
    intro u post errs tr _ hu
    simp [innerLoop, hu, probeErrors, probeTraces]
  | cons v rest ih =>
    intro u post errs tr h hu
    have hv : (probe env user apiKey v).err ≠ none := h v (List.mem_cons_self _ _)
    obtain ⟨e, he⟩ := Option.ne_none_iff_exists'.mp hv
    have hrest : ∀ w ∈ rest, (probe env user apiKey w).err ≠ none :=
      fun w hw => h w (List.mem_cons_of_mem _ hw)
    simp only [List.cons_append, innerLoop, he]
    refine (ih u post _ _ hrest hu).trans ?_
    simp [probeErrors, probeTraces, he]

/-- The inner loop over a concatenation: the second part is reached only when the first
found nothing. -/
lemma innerLoop_append (env : Env) (user apiKey : String) :
    ∀ (a b : List String) (errs : List GoError) (tr : List Effect),
      innerLoop env user apiKey (a ++ b) errs tr
        = match innerLoop env user apiKey a errs tr with
          | ⟨some url, errs', tr'⟩ => ⟨some url, errs', tr'⟩
          | ⟨none, errs', tr'⟩ => innerLoop env user apiKey b errs' tr' := by
  intro a
  induction a with
  | nil => intro b errs tr; simp [innerLoop]
  | cons v rest ih =>
    intro b errs tr
    simp only [List.cons_append, innerLoop]
    cases he : (probe env user apiKey v).err with
    | none => simp
    | some e => exact ih _ _ _

/-- The two nested loops visit the concatenated candidate lists of the hostnames. -/
lemma outerLoop_eq_innerLoop (env : Env) (mode user apiKey : String) :
    ∀ (hostnames : List String) (errs : List GoError) (tr : List Effect),
      outerLoop env mode user apiKey hostnames errs tr
        = innerLoop env user apiKey (hostnames.flatMap (urlsToTry mode)) errs tr := by
  intro hostnames
  induction hostnames with
  | nil => intro errs tr; simp [outerLoop, innerLoop]
  | cons h rest ih =>
    intro errs tr
    simp only [outerLoop, List.flatMap_cons, innerLoop_append]
    split <;> simp_all

/-- A list either has a first element satisfying `p` or none at all. -/
lemma first_or_none {α : Type} (p : α → Prop) [DecidablePred p] :
    ∀ l : List α, (∀ v ∈ l, ¬ p v) ∨
      ∃ pre u post, l = pre ++ u :: post ∧ (∀ v ∈ pre, ¬ p v) ∧ p u := by
  intro l
  induction l with
  | nil => left; simp
  | cons a rest ih =>
    by_cases ha : p a
    · right; exact ⟨[], a, rest, by simp, by simp, ha⟩
    · rcases ih with h | ⟨pre, u, post, hl, hpre, hu⟩
      · left
        intro v hv
        rcases List.mem_cons.mp hv with rfl | hv
        · exact ha
        · exact h v hv
      · right
        refine ⟨a :: pre, u, post, by simp [hl], ?_, hu⟩
        intro v hv
        rcases List.mem_cons.mp hv with rfl | hv
        · exact ha
        · exact hpre v hv

/-- What `DeduceUrl` does when the candidate sequence has a first success. -/
lemma DeduceUrl_of_first_success (env : Env) (hostnames : List String)
    (mode user apiKey : String) (pre : List String) (u : String) (post : List String)
    (hc : hostnames.flatMap (urlsToTry mode) = pre ++ u :: post)
    (hpre : ∀ v ∈ pre, (probe env user apiKey v).err ≠ none)
    (hu : (probe env user apiKey u).err = none) :
    DeduceUrl env hostnames mode user apiKey
      = ⟨u, none, probeTraces env user apiKey (pre ++ [u])⟩ := by
  simp [DeduceUrl, outerLoop_eq_innerLoop, hc,
    innerLoop_first_success env user apiKey pre u post [] [] hpre hu]

/-- What `DeduceUrl` does when every candidate fails. -/
lemma DeduceUrl_of_all_fail (env : Env) (hostnames : List String)
    (mode user apiKey : String)
    (hall : ∀ v ∈ hostnames.flatMap (urlsToTry mode), (probe env user apiKey v).err ≠ none) :
    DeduceUrl env hostnames mode user apiKey
      = ⟨"", some ("Unable to connect to any of the addresses attempted: " ++
            sprintSlice hostnames ++ ", errs: " ++
            sprintSlice (probeErrors env user apiKey (hostnames.flatMap (urlsToTry mode)))),
          probeTraces env user apiKey (hostnames.flatMap (urlsToTry mode))⟩ := by
  simp [DeduceUrl, outerLoop_eq_innerLoop,
    innerLoop_all_fail env user apiKey _ [] [] hall]

lemma occursIn_refl (s : String) : occursIn s s := List.infix_refl _

lemma occursIn_trans {a b c : String} (h₁ : occursIn a b) (h₂ : occursIn b c) :
    occursIn a c := List.IsInfix.trans h₁ h₂

lemma occursIn_append_left (a b : String) : occursIn a (a ++ b) := by
  unfold occursIn
  rw [String.data_append]
  exact (List.prefix_append _ _).isInfix

lemma occursIn_append_right (a b : String) : occursIn b (a ++ b) := by
  unfold occursIn
  rw [String.data_append]
  exact (List.suffix_append _ _).isInfix

lemma occursIn_joinWith (sep : String) :
    ∀ (xs : List String) (e : String), e ∈ xs → occursIn e (joinWith sep xs) := by
  intro xs
  induction xs with
  | nil => intro e he; simp at he
  | cons x tl ih =>
    intro e he
    cases tl with
    | nil =>
      have : e = x := by simpa using he
      subst this
      simpa [joinWith] using occursIn_refl e
    | cons y rest =>
      rcases List.mem_cons.mp he with rfl | hmem
      · simp only [joinWith]
        exact occursIn_trans (occursIn_append_left _ _) (occursIn_append_left _ _)
      · simp only [joinWith]
        exact occursIn_trans (ih e hmem) (occursIn_append_right _ _)

lemma occursIn_sprintSlice (xs : List String) (e : String) (he : e ∈ xs) :
    occursIn e (sprintSlice xs) := by
  unfold sprintSlice
  exact occursIn_trans (occursIn_joinWith " " xs e he)
    (occursIn_trans (occursIn_append_right _ _) (occursIn_append_left _ _))

lemma length_urlsToTry (mode hostname : String) :
    (urlsToTry mode hostname).length = if mode = "external" then 4 else 2 := by
  unfold urlsToTry
  by_cases h : mode = "external" <;> simp [h]

lemma length_candidates (mode : String) (hostnames : List String) :
    (hostnames.flatMap (urlsToTry mode)).length
      = hostnames.length * (if mode = "external" then 4 else 2) := by
  induction hostnames with
  | nil => simp
  | cons h rest ih =>
    simp only [List.flatMap_cons, List.length_append, List.length_cons, ih,
      length_urlsToTry]
    ring

lemma probeErrors_map_some (env : Env) (user apiKey : String) :
    ∀ cands : List String, (∀ v ∈ cands, (probe env user apiKey v).err ≠ none) →
      (probeErrors env user apiKey cands).map some
        = cands.map fun v => (probe env user apiKey v).err := by
  intro cands
  induction cands with
  | nil => intro _; simp [probeErrors]
  | cons v rest ih =>
    intro h
    have hv : (probe env user apiKey v).err ≠ none := h v (List.mem_cons_self _ _)
    obtain ⟨e, he⟩ := Option.ne_none_iff_exists'.mp hv
    have hrest := ih fun w hw => h w (List.mem_cons_of_mem _ hw)
    simp only [probeErrors] at hrest ⊢
    simp [List.filterMap_cons, he, hrest]

/-! ## Endpoint discovery -/

/-- Claim C1. Whenever the candidate sequence of `DeduceUrl` (hostname-major, then the
candidates of each hostname in order) has a first URL `u` whose probe succeeds, all
earlier ones failing, `DeduceUrl` returns `u` with a nil error, and the URLs it probes
are exactly the candidates up to and including `u` (each with `/rpc` appended): nothing
after the first success is probed. -/
theorem DeduceUrl_returns_first_success (env : Env) (hostnames : List String)
    (mode user apiKey : String) (pre : List String) (u : String) (post : List String)
    (hc : hostnames.flatMap (urlsToTry mode) = pre ++ u :: post)
    (hpre : ∀ v ∈ pre, (probe env user apiKey v).err ≠ none)
    (hu : (probe env user apiKey u).err = none) :
    (DeduceUrl env hostnames mode user apiKey).url = u ∧
    (DeduceUrl env hostnames mode user apiKey).err = none ∧
    calledUrls (DeduceUrl env hostnames mode user apiKey).trace
      = (pre ++ [u]).map (· ++ "/rpc") := by
  rw [DeduceUrl_of_first_success env hostnames mode user apiKey pre u post hc hpre hu]
  exact ⟨rfl, rfl, calledUrls_probeTraces _ _ _ _⟩

/-- A peer that answers on the third external candidate of host `h` only: discovery
returns that candidate after three probes and never tries the fourth. -/
theorem DeduceUrl_returns_first_success_witness :
    (DeduceUrl (netEnv fun url => url == "https://h:32607/rpc") ["h"] "external" "u" "k").url
      = "https://h:32607" ∧
    (DeduceUrl (netEnv fun url => url == "https://h:32607/rpc") ["h"] "external" "u" "k").err
      = none ∧
    calledUrls
        (DeduceUrl (netEnv fun url => url == "https://h:32607/rpc") ["h"] "external" "u"
          "k").trace
      = ["https://h:443", "http://h:80", "https://h:32607"].map (· ++ "/rpc") :=
  DeduceUrl_returns_first_success (netEnv fun url => url == "https://h:32607/rpc") ["h"]
    "external" "u" "k" ["https://h:443", "http://h:80"] "https://h:32607" ["http://h:32607"]
    (by decide) (by decide) (by decide)

lemma upToFirst_all_fail (ok : String → Bool) :
    ∀ l : List String, (∀ v ∈ l, ok v = false) → upToFirst ok l = l := by
  intro l
  induction l with
  | nil => intro _; rfl
  | cons a rest ih =>
    intro h
    have ha : ok a = false := h a (List.mem_cons_self _ _)
    simp [upToFirst, ha, ih fun v hv => h v (List.mem_cons_of_mem _ hv)]

lemma upToFirst_first (ok : String → Bool) :
    ∀ (pre : List String) (u : String) (post : List String),
      (∀ v ∈ pre, ok v = false) → ok u = true →
      upToFirst ok (pre ++ u :: post) = pre ++ [u] := by
  intro pre
  induction pre with
  | nil => intro u post _ hu; simp [upToFirst, hu]
  | cons a rest ih =>
    intro u post h hu
    have ha : ok a = false := h a (List.mem_cons_self _ _)
    simp [upToFirst, ha, ih u post (fun v hv => h v (List.mem_cons_of_mem _ hv)) hu]

/-- The URLs `DeduceUrl` probes are the candidates, in order, up to and including the
first whose probe succeeds, and all of them when no probe succeeds. -/
lemma calledUrls_DeduceUrl (env : Env) (hostnames : List String) (mode user apiKey : String) :
    calledUrls (DeduceUrl env hostnames mode user apiKey).trace
      = (upToFirst (fun v => (probe env user apiKey v).err.isNone)
          (hostnames.flatMap (urlsToTry mode))).map (· ++ "/rpc") := by
  rcases first_or_none (fun v => (probe env user apiKey v).err = none)
      (hostnames.flatMap (urlsToTry mode)) with hall | ⟨pre, u, post, hc, hpre, hu⟩
  · rw [DeduceUrl_of_all_fail env hostnames mode user apiKey hall, upToFirst_all_fail]
    · exact calledUrls_probeTraces _ _ _ _
    · intro v hv
      have := hall v hv
      cases he : (probe env user apiKey v).err with
      | none => exact absurd he this
      | some e => rfl
  · rw [DeduceUrl_of_first_success env hostnames mode user apiKey pre u post hc hpre hu, hc,
      upToFirst_first]
    · exact calledUrls_probeTraces _ _ _ _
    · intro v hv
      have := hpre v hv
      cases he : (probe env user apiKey v).err with
      | none => exact absurd he this
      | some e => rfl
    · simp [hu]

/-- Claim C2. The candidates for a hostname are a function of the mode and the hostname
only: for mode `external` they are `https://h:443`, `http://h:80`, `https://h:32607`,
`http://h:32607`, for mode `internal` they are `http://h:32607`, `http://h:6969`
(`SERVER_PORT` being 32607 and `SERVER_PORT_OLD` 6969).  `DeduceUrl` probes them in
exactly this order: the URLs it probes are, with `/rpc` appended, the candidates of the
hostnames in order up to and including the first whose probe succeeds (hence always an
initial segment of the candidates), and when every probe for `h` fails they are all the
candidates of `h`, in the order above. -/
theorem urlsToTry_order (h : String) :
    urlsToTry "external" h
      = ["https://" ++ h ++ ":443", "http://" ++ h ++ ":80",
         "https://" ++ h ++ ":32607", "http://" ++ h ++ ":32607"] ∧
    urlsToTry "internal" h = ["http://" ++ h ++ ":32607", "http://" ++ h ++ ":6969"] ∧
    SERVER_PORT = "32607" ∧ SERVER_PORT_OLD = "6969" ∧
    (∀ (env : Env) (hostnames : List String) (mode user apiKey : String),
      calledUrls (DeduceUrl env hostnames mode user apiKey).trace
        <+: (hostnames.flatMap (urlsToTry mode)).map (· ++ "/rpc")) ∧
    (∀ (env : Env) (hostnames : List String) (mode user apiKey : String),
      calledUrls (DeduceUrl env hostnames mode user apiKey).trace
        = (upToFirst (fun v => (probe env user apiKey v).err.isNone)
            (hostnames.flatMap (urlsToTry mode))).map (· ++ "/rpc")) ∧
    (∀ (env : Env) (user apiKey : String),
      (∀ v ∈ urlsToTry "external" h, (probe env user apiKey v).err ≠ none) →
      calledUrls (DeduceUrl env [h] "external" user apiKey).trace
        = ["https://" ++ h ++ ":443/rpc", "http://" ++ h ++ ":80/rpc",
           "https://" ++ h ++ ":32607/rpc", "http://" ++ h ++ ":32607/rpc"]) ∧
    (∀ (env : Env) (user apiKey : String),
      (∀ v ∈ urlsToTry "internal" h, (probe env user apiKey v).err ≠ none) →
      calledUrls (DeduceUrl env [h] "internal" user apiKey).trace
        = ["http://" ++ h ++ ":32607/rpc", "http://" ++ h ++ ":6969/rpc"]) := by
  have e1 : (":" : String) ++ "32607" = ":32607" := by decide
  have e2 : (":" : String) ++ "6969" = ":6969" := by decide
  have e3 : (":443" : String) ++ "/rpc" = ":443/rpc" := by decide
  have e4 : (":80" : String) ++ "/rpc" = ":80/rpc" := by decide
  have e5 : (":32607" : String) ++ "/rpc" = ":32607/rpc" := by decide
  have e6 : (":6969" : String) ++ "/rpc" = ":6969/rpc" := by decide
  have hne : ("internal" == "external") = false := by decide
  have hext : urlsToTry "external" h
      = ["https://" ++ h ++ ":443", "http://" ++ h ++ ":80",
         "https://" ++ h ++ ":32607", "http://" ++ h ++ ":32607"] := by
    simp [urlsToTry, SERVER_PORT, String.append_assoc, e1]
  have hint : urlsToTry "internal" h
      = ["http://" ++ h ++ ":32607", "http://" ++ h ++ ":6969"] := by
    simp [urlsToTry, hne, SERVER_PORT, SERVER_PORT_OLD, String.append_assoc, e1, e2]
  have hfull : ∀ (env : Env) (mode user apiKey : String),
      (∀ v ∈ urlsToTry mode h, (probe env user apiKey v).err ≠ none) →
      calledUrls (DeduceUrl env [h] mode user apiKey).trace
        = (urlsToTry mode h).map (· ++ "/rpc") := by
    intro env mode user apiKey hall
    have hall' : ∀ v ∈ [h].flatMap (urlsToTry mode),
        (probe env user apiKey v).err ≠ none := by
      intro v hv
      exact hall v (by simpa using hv)
    rw [DeduceUrl_of_all_fail env [h] mode user apiKey hall', calledUrls_probeTraces]
    simp
  refine ⟨hext, hint, rfl, rfl, ?_, calledUrls_DeduceUrl, ?_, ?_⟩
  · intro env hostnames mode user apiKey
    rcases first_or_none (fun v => (probe env user apiKey v).err = none)
        (hostnames.flatMap (urlsToTry mode)) with hall | ⟨pre, u, post, hc, hpre, hu⟩
    · rw [DeduceUrl_of_all_fail env hostnames mode user apiKey hall]
      simp [calledUrls_probeTraces]
    · rw [DeduceUrl_of_first_success env hostnames mode user apiKey pre u post hc hpre hu,
        hc]
      simp only [calledUrls_probeTraces, List.map_append, List.map_cons, List.map_nil]
      exact (List.prefix_append_right_inj _).mpr
        (List.prefix_iff_eq_append.mpr (by simp))
  · intro env user apiKey hall
    rw [hfull env "external" user apiKey hall, hext]
    simp [String.append_assoc, e3, e4, e5]
  · intro env user apiKey hall
    rw [hfull env "internal" user apiKey hall, hint]
    simp [String.append_assoc, e5, e6]

/-- A peer that rejects every probe of host `h`: all four external candidates are probed,
in the stated order. -/
theorem urlsToTry_order_witness :
    calledUrls (DeduceUrl env401 ["h"] "external" "u" "k").trace
      = ["https://" ++ "h" ++ ":443/rpc", "http://" ++ "h" ++ ":80/rpc",
         "https://" ++ "h" ++ ":32607/rpc", "http://" ++ "h" ++ ":32607/rpc"] :=
  (urlsToTry_order "h").2.2.2.2.2.2.1 env401 "u" "k" (by decide)

/-- Claim C3 (as stated, refuted). Against a peer that answers every probe with status 401
every candidate of host `h` fails, yet the candidate address `https://h:443` that was
attempted does not occur in the error message of `DeduceUrl`: the message lists the
hostnames, not the candidate URLs. -/
theorem DeduceUrl_error_omits_candidate_url :
    (∀ v ∈ urlsToTry "external" "h", (probe env401 "u" "k" v).err ≠ none) ∧
    ∃ msg, (DeduceUrl env401 ["h"] "external" "u" "k").err = some msg ∧
      ¬ occursIn "https://h:443" msg :=
  ⟨by decide, _, rfl, by decide⟩

/-- Claim C3 (amended). If every probe of every candidate fails, `DeduceUrl` returns the
empty URL and one error whose message is
`Unable to connect to any of the addresses attempted: <hostnames>, errs: <errs>`, where
`errs` holds, in probe order, the error of the probe of each of the `N × k` candidates
(`k` is 4 in external mode and 2 otherwise): every individual probe error and every
hostname occurs in the message, and exactly `N × k` errors are reported. -/
theorem DeduceUrl_reports_every_error (env : Env) (hostnames : List String)
    (mode user apiKey : String)
    (hall : ∀ h ∈ hostnames, ∀ v ∈ urlsToTry mode h, (probe env user apiKey v).err ≠ none) :
    ∃ (errs : List GoError) (msg : String),
      (DeduceUrl env hostnames mode user apiKey).url = "" ∧
      (DeduceUrl env hostnames mode user apiKey).err = some msg ∧
      msg = "Unable to connect to any of the addresses attempted: " ++
        sprintSlice hostnames ++ ", errs: " ++ sprintSlice errs ∧
      errs.map some
        = (hostnames.flatMap (urlsToTry mode)).map (fun v => (probe env user apiKey v).err) ∧
      errs.length = hostnames.length * (if mode = "external" then 4 else 2) ∧
      (∀ e ∈ errs, occursIn e msg) ∧
      (∀ h ∈ hostnames, occursIn h msg) := by
  have hall' : ∀ v ∈ hostnames.flatMap (urlsToTry mode),
      (probe env user apiKey v).err ≠ none := by
    intro v hv
    obtain ⟨h, hh, hv⟩ := List.mem_flatMap.mp hv
    exact hall h hh v hv
  have hmap := probeErrors_map_some env user apiKey _ hall'
  refine ⟨probeErrors env user apiKey (hostnames.flatMap (urlsToTry mode)), _, ?_, ?_, rfl,
    hmap, ?_, ?_, ?_⟩
  · rw [DeduceUrl_of_all_fail env hostnames mode user apiKey hall']
  · rw [DeduceUrl_of_all_fail env hostnames mode user apiKey hall']
  · have hlen := congrArg List.length hmap
    rw [List.length_map, List.length_map, length_candidates] at hlen
    exact hlen
  · intro e he
    exact occursIn_trans (occursIn_sprintSlice _ e he) (occursIn_append_right _ _)
  · intro h hh
    refine occursIn_trans (occursIn_sprintSlice _ h hh) ?_
    refine occursIn_trans
      (occursIn_append_right "Unable to connect to any of the addresses attempted: " _) ?_
    exact occursIn_trans (occursIn_append_left _ ", errs: ") (occursIn_append_left _ _)

/-- Two hosts behind a peer that rejects the credentials, internal mode: four errors. -/
theorem DeduceUrl_reports_every_error_witness :
    ∃ (errs : List GoError) (msg : String),
      (DeduceUrl env401 ["a", "b"] "internal" "u" "k").url = "" ∧
      (DeduceUrl env401 ["a", "b"] "internal" "u" "k").err = some msg ∧
      msg = "Unable to connect to any of the addresses attempted: " ++
        sprintSlice ["a", "b"] ++ ", errs: " ++ sprintSlice errs ∧
      errs.map some
        = (["a", "b"].flatMap (urlsToTry "internal")).map
            (fun v => (probe env401 "u" "k" v).err) ∧
      errs.length = ["a", "b"].length * (if "internal" = "external" then 4 else 2) ∧
      (∀ e ∈ errs, occursIn e msg) ∧
      (∀ h ∈ ["a", "b"], occursIn h msg) :=
  DeduceUrl_reports_every_error env401 ["a", "b"] "internal" "u" "k" (by decide)

/-! ## Rendering of the client identity -/

/-- Claim C4 (as stated, refuted). A client whose user name equals its API key: the
rendering shows the user name, hence contains the literal API key value. -/
theorem String_contains_ApiKey_value :
    occursIn
      (JsonRpcClient.ApiKey ⟨"hunter2", "node1", "hunter2", 0, false⟩)
      (JsonRpcClient.String ⟨"hunter2", "node1", "hunter2", 0, false⟩) := by
  decide

/-- Claim C4 (amended). The rendering of a client is
` User=<User>, Hostname=<Hostname>, ApiKey=****, Port=<Port>, Verbose=<Verbose>,`: the
`ApiKey` field is shown as the placeholder `****` and the rendering does not depend on
the API key at all (two clients that differ only in the key render identically). -/
theorem String_masks_ApiKey (c : JsonRpcClient) :
    JsonRpcClient.String c
      = " User=" ++ c.User ++ ", Hostname=" ++ c.Hostname ++ ", ApiKey=****, Port=" ++
          toString c.Port ++ ", Verbose=" ++ toString c.Verbose ++ "," ∧
    ∀ apiKey : String, JsonRpcClient.String { c with ApiKey := apiKey }
      = JsonRpcClient.String c := by
  have k1 : ("User" == "ApiKey") = false := by decide
  have k2 : ("Hostname" == "ApiKey") = false := by decide
  have k3 : ("Port" == "ApiKey") = false := by decide
  have k4 : ("Verbose" == "ApiKey") = false := by decide
  constructor
  · simp only [JsonRpcClient.String, JsonRpcClient.reflectFields, List.foldl, k1, k2, k3, k4,
      beq_self_eq_true, Bool.false_eq_true, if_false, if_true]
    apply String.ext
    simp only [String.data_append, List.append_assoc]
    rfl
  · intro apiKey
    simp [JsonRpcClient.String, JsonRpcClient.reflectFields, List.foldl]

/-! ## The call itself -/

/-- Claim C5. A call whose HTTP response has status 401 returns, whatever the response
body, the error `Permission denied. Please check that your API key is still valid.`;
the body is neither read nor decoded and the result destination is left as it was. -/
theorem reallyCallRemote_unauthorized (env : Env) (j : JsonRpcClient) (method : String)
    (args : Args) (result : Dest) (urlToUse message : String) (resp : HttpResponse)
    (henc : env.EncodeClientRequest method args = .ok message)
    (hreq : env.NewRequest "POST" urlToUse message = none)
    (hdo : env.Do ⟨"POST", urlToUse, message, "application/json", env.ToHTTPRequest method,
        (j.User, j.ApiKey)⟩ = .ok resp)
    (h401 : resp.StatusCode = 401) :
    (∃ msg, (reallyCallRemote env j method args result urlToUse).err = some msg ∧
      msg = "Permission denied. Please check that your API key is still valid." ∧
      occursIn "check that your API key is still valid" msg) ∧
    (reallyCallRemote env j method args result urlToUse).result = result ∧
    Effect.readBody ∉ (reallyCallRemote env j method args result urlToUse).trace ∧
    ∀ b, Effect.decode b ∉ (reallyCallRemote env j method args result urlToUse).trace := by
  have hval : reallyCallRemote env j method args result urlToUse
      = ⟨some "Permission denied. Please check that your API key is still valid.", result,
          [.call urlToUse method args, .startSpan method,
            .setTag "type" "dotmesh-server rpc", .setTag "rpcMethod" method,
            .setTag "rpcArgs" args.sprintV] ++
          (if j.Verbose then [.stdout "send rpc request", .stdout message] else []) ++
          [.send ⟨"POST", urlToUse, message, "application/json", env.ToHTTPRequest method,
            (j.User, j.ApiKey)⟩] ++
          [.setTag "error" "Permission denied", .closeBody, .finish]⟩ := by
    simp only [reallyCallRemote, henc, hreq, hdo, h401, if_true]
  rw [hval]
  refine ⟨⟨_, rfl, rfl, by decide⟩, rfl, ?_, ?_⟩
  · cases j.Verbose <;> simp
  · intro b
    cases j.Verbose <;> simp

/-- A peer rejecting the credentials with a body that is not even JSON. -/
theorem reallyCallRemote_unauthorized_witness :
    (∃ msg, (reallyCallRemote env401 ⟨"u", "h", "k", 80, true⟩ "DotmeshRPC.Ping" .emptyStruct
          (.bool false) "http://h:80/rpc").err = some msg ∧
      msg = "Permission denied. Please check that your API key is still valid." ∧
      occursIn "check that your API key is still valid" msg) ∧
    (reallyCallRemote env401 ⟨"u", "h", "k", 80, true⟩ "DotmeshRPC.Ping" .emptyStruct
      (.bool false) "http://h:80/rpc").result = .bool false ∧
    Effect.readBody ∉ (reallyCallRemote env401 ⟨"u", "h", "k", 80, true⟩ "DotmeshRPC.Ping"
      .emptyStruct (.bool false) "http://h:80/rpc").trace ∧
    ∀ b, Effect.decode b ∉ (reallyCallRemote env401 ⟨"u", "h", "k", 80, true⟩
      "DotmeshRPC.Ping" .emptyStruct (.bool false) "http://h:80/rpc").trace :=
  reallyCallRemote_unauthorized env401 ⟨"u", "h", "k", 80, true⟩ "DotmeshRPC.Ping"
    .emptyStruct (.bool false) "http://h:80/rpc"
    "\x7b\"jsonrpc\":\"2.0\",\"method\":\"DotmeshRPC.Ping\",\"params\":\x7b\x7d,\"id\":0\x7d"
    ⟨401, .ok "Unauthorized"⟩ rfl rfl rfl rfl

/-- Claim C7 (evaluation at the failing input). A call whose connection is refused returns
the transport error, and its span is finished without ever having received an `error`
tag. -/
theorem reallyCallRemote_transport_failure_untagged :
    (reallyCallRemote (netEnv fun _ => false) ⟨"u", "h", "k", 80, false⟩ "DotmeshRPC.Ping"
      .emptyStruct (.bool false) "http://h:80/rpc").err = some "connection refused" ∧
    errorTags (reallyCallRemote (netEnv fun _ => false) ⟨"u", "h", "k", 80, false⟩
      "DotmeshRPC.Ping" .emptyStruct (.bool false) "http://h:80/rpc").trace = [] ∧
    (reallyCallRemote (netEnv fun _ => false) ⟨"u", "h", "k", 80, false⟩ "DotmeshRPC.Ping"
      .emptyStruct (.bool false) "http://h:80/rpc").trace.getLast? = some .finish := by
  decide

/-- A nil error from `DeduceUrl` means that the returned URL is the first candidate
whose probe succeeded and that probing stopped there. -/
lemma DeduceUrl_err_none (env : Env) (hostnames : List String) (mode user apiKey : String)
    (h : (DeduceUrl env hostnames mode user apiKey).err = none) :
    ∃ pre post,
      hostnames.flatMap (urlsToTry mode)
        = pre ++ (DeduceUrl env hostnames mode user apiKey).url :: post ∧
      (∀ v ∈ pre, (probe env user apiKey v).err ≠ none) ∧
      (probe env user apiKey (DeduceUrl env hostnames mode user apiKey).url).err = none ∧
      (DeduceUrl env hostnames mode user apiKey).trace
        = probeTraces env user apiKey
            (pre ++ [(DeduceUrl env hostnames mode user apiKey).url]) := by
  rcases first_or_none (fun v => (probe env user apiKey v).err = none)
      (hostnames.flatMap (urlsToTry mode)) with hall | ⟨pre, u, post, hc, hpre, hu⟩
  · rw [DeduceUrl_of_all_fail env hostnames mode user apiKey hall] at h
    simp at h
  · rw [DeduceUrl_of_first_success env hostnames mode user apiKey pre u post hc hpre hu]
    exact ⟨pre, post, hc, hpre, hu, rfl⟩

/-- Claim C6. `CallRemote` picks its target as follows.  With a fixed port `p` (a non-zero
`Port`) it is exactly the call to `http://<Hostname>:<p>/rpc`, with no probe.  Otherwise
it runs `DeduceUrl` on the single hostname `[Hostname]` in mode `external`; if that
fails, its error is returned unchanged, the destination is untouched and nothing but the
probes has happened; if it succeeds, the call goes to the resolved URL with `/rpc`
appended, which is the URL the last, successful probe was sent to. -/
theorem CallRemote_target (env : Env) (j : JsonRpcClient) (method : String) (args : Args)
    (result : Dest) :
    (j.Port ≠ 0 →
      j.CallRemote env method args result
        = reallyCallRemote env j method args result
            ("http://" ++ j.Hostname ++ ":" ++ toString j.Port ++ "/rpc") ∧
      calledUrls (j.CallRemote env method args result).trace
        = ["http://" ++ j.Hostname ++ ":" ++ toString j.Port ++ "/rpc"]) ∧
    (j.Port = 0 →
      (∀ e, (DeduceUrl env [j.Hostname] "external" j.User j.ApiKey).err = some e →
        (j.CallRemote env method args result).err = some e ∧
        (j.CallRemote env method args result).result = result ∧
        (j.CallRemote env method args result).trace
          = (DeduceUrl env [j.Hostname] "external" j.User j.ApiKey).trace) ∧
      ((DeduceUrl env [j.Hostname] "external" j.User j.ApiKey).err = none →
        (j.CallRemote env method args result).err
          = (reallyCallRemote env j method args result
              ((DeduceUrl env [j.Hostname] "external" j.User j.ApiKey).url ++ "/rpc")).err ∧
        (j.CallRemote env method args result).result
          = (reallyCallRemote env j method args result
              ((DeduceUrl env [j.Hostname] "external" j.User j.ApiKey).url ++ "/rpc")).result ∧
        (j.CallRemote env method args result).trace
          = (DeduceUrl env [j.Hostname] "external" j.User j.ApiKey).trace ++
            (reallyCallRemote env j method args result
              ((DeduceUrl env [j.Hostname] "external" j.User j.ApiKey).url ++ "/rpc")).trace ∧
        (probe env j.User j.ApiKey
          (DeduceUrl env [j.Hostname] "external" j.User j.ApiKey).url).err = none ∧
        (calledUrls (DeduceUrl env [j.Hostname] "external" j.User j.ApiKey).trace).getLast?
          = some ((DeduceUrl env [j.Hostname] "external" j.User j.ApiKey).url ++ "/rpc") ∧
        (calledUrls (j.CallRemote env method args result).trace).getLast?
          = some ((DeduceUrl env [j.Hostname] "external" j.User j.ApiKey).url ++ "/rpc"))) := by
  refine ⟨fun hp => ?_, fun hp => ⟨fun e he => ?_, fun hnone => ?_⟩⟩
  · have heq : j.CallRemote env method args result
        = reallyCallRemote env j method args result
            ("http://" ++ j.Hostname ++ ":" ++ toString j.Port ++ "/rpc") := by
      simp [JsonRpcClient.CallRemote, hp]
    exact ⟨heq, by rw [heq, calledUrls_reallyCallRemote]⟩
  · simp [JsonRpcClient.CallRemote, hp, he]
  · obtain ⟨pre, post, -, -, hu, htr⟩ := DeduceUrl_err_none env _ _ _ _ hnone
    have hlast : (calledUrls (DeduceUrl env [j.Hostname] "external" j.User j.ApiKey).trace).getLast?
        = some ((DeduceUrl env [j.Hostname] "external" j.User j.ApiKey).url ++ "/rpc") := by
      rw [htr, calledUrls_probeTraces]
      simp
    refine ⟨?_, ?_, ?_, hu, hlast, ?_⟩
    · simp [JsonRpcClient.CallRemote, hp, hnone]
    · simp [JsonRpcClient.CallRemote, hp, hnone]
    · simp [JsonRpcClient.CallRemote, hp, hnone]
    · have htrace : (j.CallRemote env method args result).trace
          = (DeduceUrl env [j.Hostname] "external" j.User j.ApiKey).trace ++
            (reallyCallRemote env j method args result
              ((DeduceUrl env [j.Hostname] "external" j.User j.ApiKey).url ++ "/rpc")).trace := by
        simp [JsonRpcClient.CallRemote, hp, hnone]
      rw [htrace, calledUrls_append, calledUrls_reallyCallRemote]
      simp

/-- A client with the fixed port 6969 calls `http://node1:6969/rpc` directly. -/
theorem CallRemote_target_witness :
    JsonRpcClient.CallRemote (netEnv fun _ => true) ⟨"u", "node1", "k", 6969, false⟩
        "DotmeshRPC.Version" .nil (.other "")
      = reallyCallRemote (netEnv fun _ => true) ⟨"u", "node1", "k", 6969, false⟩
          "DotmeshRPC.Version" .nil (.other "")
          ("http://" ++ "node1" ++ ":" ++ toString (6969 : Int) ++ "/rpc") ∧
    calledUrls (JsonRpcClient.CallRemote (netEnv fun _ => true)
        ⟨"u", "node1", "k", 6969, false⟩ "DotmeshRPC.Version" .nil (.other "")).trace
      = ["http://" ++ "node1" ++ ":" ++ toString (6969 : Int) ++ "/rpc"] :=
  (CallRemote_target (netEnv fun _ => true) ⟨"u", "node1", "k", 6969, false⟩
    "DotmeshRPC.Version" .nil (.other "")).1 (by decide)

/-! ## Liveness check -/

/-- Claim C8 (as stated, refuted). For the same target `http://h:80/rpc` the user-facing
`Ping` and the probe of `DeduceUrl` both call method `DotmeshRPC.Ping`, but `Ping` passes
the empty struct as arguments and the probe passes `nil`; under the JSON encoding the
two request bodies differ (`params` is an empty object in one and `null` in the other),
so the requests are not identical. -/
theorem Ping_request_differs_from_probe_request :
    (JsonRpcClient.Ping (netEnv fun _ => true) ⟨"u", "h", "k", 80, false⟩).trace.head?
      = some (.call "http://h:80/rpc" "DotmeshRPC.Ping" .emptyStruct) ∧
    (probe (netEnv fun _ => true) "u" "k" "http://h:80").trace.head?
      = some (.call "http://h:80/rpc" "DotmeshRPC.Ping" .nil) ∧
    sentRequests (JsonRpcClient.Ping (netEnv fun _ => true) ⟨"u", "h", "k", 80, false⟩).trace
      ≠ sentRequests (probe (netEnv fun _ => true) "u" "k" "http://h:80").trace := by
  decide

lemma Ping_err (env : Env) (c : JsonRpcClient) :
    (JsonRpcClient.Ping env c).err
      = (c.CallRemote env "DotmeshRPC.Ping" .emptyStruct (.bool false)).err := by
  unfold JsonRpcClient.Ping
  simp only []
  split
  · simp_all
  · split <;> simp_all

lemma Ping_trace (env : Env) (c : JsonRpcClient) :
    (JsonRpcClient.Ping env c).trace
      = (c.CallRemote env "DotmeshRPC.Ping" .emptyStruct (.bool false)).trace := by
  unfold JsonRpcClient.Ping
  simp only []
  split
  · simp_all
  · split <;> simp_all

/-- The call made by `Ping` and the call made by a probe, both to `url`: when the two
requests get the same response the two calls end with the same error. -/
lemma reallyCallRemote_Ping_agree (env : Env) (j j' : JsonRpcClient)
    (url msgP msgQ : String) (resp : HttpResponse)
    (huser : j'.User = j.User) (hkey : j'.ApiKey = j.ApiKey)
    (hencP : env.EncodeClientRequest "DotmeshRPC.Ping" .emptyStruct = .ok msgP)
    (hencQ : env.EncodeClientRequest "DotmeshRPC.Ping" .nil = .ok msgQ)
    (hreqP : env.NewRequest "POST" url msgP = none)
    (hreqQ : env.NewRequest "POST" url msgQ = none)
    (hdoP : env.Do ⟨"POST", url, msgP, "application/json",
      env.ToHTTPRequest "DotmeshRPC.Ping", (j.User, j.ApiKey)⟩ = .ok resp)
    (hdoQ : env.Do ⟨"POST", url, msgQ, "application/json",
      env.ToHTTPRequest "DotmeshRPC.Ping", (j.User, j.ApiKey)⟩ = .ok resp) :
    (reallyCallRemote env j "DotmeshRPC.Ping" .emptyStruct (.bool false) url).err
      = (reallyCallRemote env j' "DotmeshRPC.Ping" .nil (.bool false) url).err ∧
    calledWith (reallyCallRemote env j "DotmeshRPC.Ping" .emptyStruct (.bool false) url).trace
      = [(url, "DotmeshRPC.Ping", .emptyStruct)] ∧
    calledWith (reallyCallRemote env j' "DotmeshRPC.Ping" .nil (.bool false) url).trace
      = [(url, "DotmeshRPC.Ping", .nil)] ∧
    sentRequests
        (reallyCallRemote env j "DotmeshRPC.Ping" .emptyStruct (.bool false) url).trace
      = [⟨"POST", url, msgP, "application/json", env.ToHTTPRequest "DotmeshRPC.Ping",
          (j.User, j.ApiKey)⟩] ∧
    sentRequests (reallyCallRemote env j' "DotmeshRPC.Ping" .nil (.bool false) url).trace
      = [⟨"POST", url, msgQ, "application/json", env.ToHTTPRequest "DotmeshRPC.Ping",
          (j.User, j.ApiKey)⟩] := by
  simp only [reallyCallRemote, huser, hkey, hencP, hencQ, hreqP, hreqQ, hdoP, hdoQ]
  by_cases h401 : resp.StatusCode = 401
  · simp only [h401, if_true]
    cases j.Verbose <;> cases j'.Verbose <;> simp [sentRequests, calledWith]
  · simp only [h401, if_false]
    cases hb : resp.Body with
    | error e => cases j.Verbose <;> cases j'.Verbose <;> simp [sentRequests, calledWith]
    | ok b =>
      simp only []
      rcases hd : env.DecodeClientResponse b (.bool false) with ⟨_ | e, r⟩
      · cases j.Verbose <;> cases j'.Verbose <;> simp [sentRequests, calledWith]
      · cases j.Verbose <;> cases j'.Verbose <;> simp [sentRequests, calledWith]

/-- Claim C8 (amended). For every client and every target URL of the call `Ping` itself
makes (`http://<Hostname>:<Port>/rpc` for a fixed port, otherwise `<url>/rpc` for the URL
discovery resolved), `Ping` and the probe of `DeduceUrl` for the same base URL enter the
call with the same method `DotmeshRPC.Ping`, the same URL, the same credentials and a
`bool` destination, but not with the same arguments: the empty struct for `Ping`, `nil`
for the probe, so each sends the body the encoder makes of its own arguments, the
requests being otherwise equal.  Whenever the two requests receive the same HTTP
response, the two return the same error: they succeed or fail together.  When a client
without a fixed port finds no endpoint, `Ping` makes no call of its own: it has sent
the probes of `DeduceUrl` and nothing else, and returns the error of `DeduceUrl`. -/
theorem Ping_and_probe_agree_on_response (env : Env) (c : JsonRpcClient) :
    (∀ e, c.Port = 0 →
      (DeduceUrl env [c.Hostname] "external" c.User c.ApiKey).err = some e →
      (JsonRpcClient.Ping env c).err = some e ∧
      (JsonRpcClient.Ping env c).trace
        = (DeduceUrl env [c.Hostname] "external" c.User c.ApiKey).trace) ∧
    (∀ (base msgP msgQ : String) (resp : HttpResponse),
      ((c.Port ≠ 0 ∧ base = "http://" ++ c.Hostname ++ ":" ++ toString c.Port) ∨
        (c.Port = 0 ∧
          (DeduceUrl env [c.Hostname] "external" c.User c.ApiKey).err = none ∧
          base = (DeduceUrl env [c.Hostname] "external" c.User c.ApiKey).url)) →
      env.EncodeClientRequest "DotmeshRPC.Ping" .emptyStruct = .ok msgP →
      env.EncodeClientRequest "DotmeshRPC.Ping" .nil = .ok msgQ →
      env.NewRequest "POST" (base ++ "/rpc") msgP = none →
      env.NewRequest "POST" (base ++ "/rpc") msgQ = none →
      env.Do ⟨"POST", base ++ "/rpc", msgP, "application/json",
        env.ToHTTPRequest "DotmeshRPC.Ping", (c.User, c.ApiKey)⟩ = .ok resp →
      env.Do ⟨"POST", base ++ "/rpc", msgQ, "application/json",
        env.ToHTTPRequest "DotmeshRPC.Ping", (c.User, c.ApiKey)⟩ = .ok resp →
      (JsonRpcClient.Ping env c).err = (probe env c.User c.ApiKey base).err ∧
      (calledWith (JsonRpcClient.Ping env c).trace).getLast?
        = some (base ++ "/rpc", "DotmeshRPC.Ping", .emptyStruct) ∧
      calledWith (probe env c.User c.ApiKey base).trace
        = [(base ++ "/rpc", "DotmeshRPC.Ping", .nil)] ∧
      (sentRequests (JsonRpcClient.Ping env c).trace).getLast?
        = some ⟨"POST", base ++ "/rpc", msgP, "application/json",
            env.ToHTTPRequest "DotmeshRPC.Ping", (c.User, c.ApiKey)⟩ ∧
      sentRequests (probe env c.User c.ApiKey base).trace
        = [⟨"POST", base ++ "/rpc", msgQ, "application/json",
            env.ToHTTPRequest "DotmeshRPC.Ping", (c.User, c.ApiKey)⟩]) := by
  constructor
  · intro e hp he
    rw [Ping_err, Ping_trace]
    simp [JsonRpcClient.CallRemote, hp, he]
  · intro base msgP msgQ resp htarget hencP hencQ hreqP hreqQ hdoP hdoQ
    obtain ⟨herr, hcP, hcQ, hsP, hsQ⟩ :=
      reallyCallRemote_Ping_agree env c (NewJsonRpcClient c.User "" c.ApiKey 0)
        (base ++ "/rpc") msgP msgQ resp rfl rfl hencP hencQ hreqP hreqQ hdoP hdoQ
    rw [Ping_err, Ping_trace]
    rcases htarget with ⟨hp, hbase⟩ | ⟨hp, hnone, hbase⟩
    · have hcall : c.CallRemote env "DotmeshRPC.Ping" .emptyStruct (.bool false)
          = reallyCallRemote env c "DotmeshRPC.Ping" .emptyStruct (.bool false)
              (base ++ "/rpc") := by
        simp [JsonRpcClient.CallRemote, hp, hbase, String.append_assoc]
      rw [hcall]
      exact ⟨herr, by rw [hcP]; rfl, hcQ, by rw [hsP]; rfl, hsQ⟩
    · have herr' : (c.CallRemote env "DotmeshRPC.Ping" .emptyStruct (.bool false)).err
          = (reallyCallRemote env c "DotmeshRPC.Ping" .emptyStruct (.bool false)
              (base ++ "/rpc")).err := by
        simp [JsonRpcClient.CallRemote, hp, hnone, hbase]
      have htr : (c.CallRemote env "DotmeshRPC.Ping" .emptyStruct (.bool false)).trace
          = (DeduceUrl env [c.Hostname] "external" c.User c.ApiKey).trace ++
            (reallyCallRemote env c "DotmeshRPC.Ping" .emptyStruct (.bool false)
              (base ++ "/rpc")).trace := by
        simp [JsonRpcClient.CallRemote, hp, hnone, hbase]
      refine ⟨herr'.trans herr, ?_, hcQ, ?_, hsQ⟩
      · rw [htr]
        simp only [calledWith, List.filterMap_append] at hcP ⊢
        rw [hcP]
        simp
      · rw [htr]
        simp only [sentRequests, List.filterMap_append] at hsP ⊢
        rw [hsP]
        simp

/-- A client without a fixed port whose host answers on every candidate: discovery
resolves `https://h:443`, and the call `Ping` then makes to it gets the answer the probe
got, so both succeed. -/
theorem Ping_and_probe_agree_on_response_witness :
    (JsonRpcClient.Ping (netEnv fun _ => true) ⟨"u", "h", "k", 0, true⟩).err
      = (probe (netEnv fun _ => true) "u" "k" "https://h:443").err :=
  ((Ping_and_probe_agree_on_response (netEnv fun _ => true) ⟨"u", "h", "k", 0, true⟩).2
    "https://h:443"
    "\x7b\"jsonrpc\":\"2.0\",\"method\":\"DotmeshRPC.Ping\",\"params\":\x7b\x7d,\"id\":0\x7d"
    "\x7b\"jsonrpc\":\"2.0\",\"method\":\"DotmeshRPC.Ping\",\"params\":null,\"id\":0\x7d"
    ⟨200, .ok "true"⟩ (Or.inr ⟨rfl, by decide, by decide⟩) rfl rfl rfl rfl rfl rfl).1

/-! ## The retrying ZFS command runner -/

/-- Once the `Cmd` holds a started process, no later iteration executes the command or
returns nil: whatever the loop returns from then on is an error. -/
lemma zfsCommandWithRetriesFrom_started (w : RetryWorld) (description : String) :
    ∀ (fuel i executions : Nat) (err : Option GoError) (out : RetryOutcome),
      zfsCommandWithRetriesFrom w description fuel i true executions err = some out →
      out.err ≠ none ∧ out.executions = executions := by
  intro fuel
  induction fuel with
  | zero => intro i executions err out h; simp [zfsCommandWithRetriesFrom] at h
  | succ fuel ih =>
    intro i executions err out h
    by_cases hd : w.done i = true
    · simp [zfsCommandWithRetriesFrom, hd] at h
      subst h
      simp
    · simp only [zfsCommandWithRetriesFrom, hd, cmdRun, if_true, Bool.false_eq_true,
        if_false] at h
      exact ih _ _ _ _ h

/-- A command whose first execution fails is never executed again: whenever the function
returns, it returns an error and the command has been executed exactly once. -/
lemma zfsCommandWithRetries_never_retries (w : RetryWorld) (description : String)
    (fuel : Nat) (waitErr : GoError) (stderr : String) (out : RetryOutcome)
    (hdone : w.done 0 = false) (hexec : w.exec 0 = .ran (some waitErr) stderr)
    (h : zfsCommandWithRetries w description fuel = some out) :
    out.err ≠ none ∧ out.executions = 1 := by
  cases fuel with
  | zero => simp [zfsCommandWithRetries, zfsCommandWithRetriesFrom] at h
  | succ fuel =>
    simp only [zfsCommandWithRetries, zfsCommandWithRetriesFrom, hdone, cmdRun, hexec,
      Bool.false_eq_true, if_false, if_true] at h
    exact zfsCommandWithRetriesFrom_started w description _ _ _ _ out h

/-- Claim C9 (evaluation at the failing input). A command that fails while the dataset
is busy and would succeed from the third iteration on, under a context that is done after
five iterations: `cmd.Run()` is called five times but the command is executed once; the
four later calls are refused with `exec: already started`, so the function does not
return nil at the run that would have succeeded, and the error it returns reports that
refusal with empty output instead of an error and output of the command. -/
theorem zfsCommandWithRetries_reruns_started_cmd :
    (busyWorld 5).exec 2 = .ran none "" ∧
    zfsCommandWithRetries (busyWorld 5) "list" 10
      = some ⟨some ("deadline exceeded, last error: error running ZFS command to list: " ++
          "exec: already started / "), 5, 1⟩ := by
  decide

/-! ## Events -/

/-- Claim C10. `Error()` recovers the error an event was built with: for a non-nil `err`,
`NewErrorEvent(name, err).Error()` is `err`; `NewErrorEvent(name, nil)` is the event
`NewEvent(name)`, whose `Args` is an empty non-nil map, and its `Error()` is nil; and
`Error()` is nil for every event whose `Args` is nil, has no `err` key, or holds under
`err` a value that is not an error. -/
theorem Event_Error_spec (name : String) :
    (∀ err : GoError, (NewErrorEvent name (some err)).Error = some err) ∧
    NewErrorEvent name none = NewEvent name ∧
    (NewEvent name).Args = some [] ∧
    (NewErrorEvent name none).Error = none ∧
    (∀ e : Event, e.Args = none → e.Error = none) ∧
    (∀ (e : Event) (args : EventArgs), e.Args = some args → args.lookup "err" = none →
      e.Error = none) ∧
    (∀ (e : Event) (args : EventArgs) (v : ArgValue), e.Args = some args →
      args.lookup "err" = some v → (∀ err, v ≠ .error err) → e.Error = none) := by
  refine ⟨fun err => ?_, rfl, rfl, rfl, ?_, ?_, ?_⟩
  · simp [NewErrorEvent, Event.Error, List.lookup]
  · intro e h
    simp [Event.Error, h]
  · intro e args h hl
    simp [Event.Error, h, hl]
  · intro e args v h hl hv
    cases v with
    | error err => exact absurd rfl (hv err)
    | nil => simp [Event.Error, h, hl]
    | other r => simp [Event.Error, h, hl]

/-- An event whose `err` argument is a plain string, not an error value. -/
theorem Event_Error_spec_witness :
    Event.Error ⟨"1", "snapshot", "fs", .EventTypeResponse,
      some [("count", .other "3"), ("err", .other "boom")]⟩ = none :=
  (Event_Error_spec "snapshot").2.2.2.2.2.2
    ⟨"1", "snapshot", "fs", .EventTypeResponse,
      some [("count", .other "3"), ("err", .other "boom")]⟩
    [("count", .other "3"), ("err", .other "boom")] (.other "boom") rfl (by decide)
    (fun _ h => by cases h)

end Dotmesh
